import Mathlib

/-!
Verification of the response-normalization decoder of `github_mcp_example.py`.

The two functions under study are `extract_repos_from_response` (the spec's
`extract_records`, lines 149-202 of the source) and the content decoders:
`extract_file_content` (lines 594-697) together with the inline decoder of
`get_readme_content` (lines 321-448), which jointly realize the spec's
`extract_text`.

Modelling conventions:
  - A decoded Python JSON value is the inductive `Json` below; Python dicts
    become association lists, `x in d` / `d[x]` become `jLookup`.
  - The standard library calls `json.loads` and `json.dumps(..., indent=2)`
    are abstracted as parameters `p : String -> Option Json` (with `none`
    standing for a raised `JSONDecodeError`) and `dmp : Json -> String`
    (`json.dumps` is total on decoded JSON values).
  - `base64.b64decode(x).decode("utf-8")` and the regular-expression search
    over the fixed pattern of the source are implemented concretely below.
  - Functions whose bodies catch exceptions are given twice: a pure version
    returning `Option`/`List`, and an `Except`-valued version whose raise
    sites and `try`/`except` blocks mirror the source; agreement of the two
    establishes that no exception escapes the component.
-/

/-- A decoded Python JSON value (the output of `json.loads`). Python dicts
are modelled as association lists, looked up at the first occurrence. -/
inductive Json where
  | null : Json
  | bool : Bool → Json
  | num : Int → Json
  | str : String → Json
  | arr : List Json → Json
  | obj : List (String × Json) → Json

/-- Membership-plus-indexing of a Python dict: `k in d` and `d[k]`. -/
def jLookup (k : String) : List (String × Json) → Option Json
  | [] => none
  | (k₂, v) :: rest => if k₂ = k then some v else jLookup k rest

/-- The compound guard `k in d and isinstance(d[k], list)` used throughout
the source: yields the list exactly when the field is present and is a
sequence. -/
def lookupSeq (k : String) (fields : List (String × Json)) : Option (List Json) :=
  match jLookup k fields with
  | some (Json.arr l) => some l
  | _ => none

/-- The per-element test of source lines 154-156 and 189-191:
`isinstance(item, dict) and "full_name" in item`. -/
def isRepoDict : Json → Bool
  | Json.obj fields => (jLookup "full_name" fields).isSome
  | _ => false

/-- First successful application of `f` along a list: models a Python
`for` loop whose body `break`s (returns) on the first success and
otherwise continues with the next element. -/
def firstSome {α : Type} (f : Json → Option α) : List Json → Option α
  | [] => none
  | x :: xs =>
    match f x with
    | some r => some r
    | none => firstSome f xs

/-- The inner shape checks of source lines 179-193, applied to a value
parsed from a content item's `text`: a mapping exposing `items`,
`repositories` or `data` as a sequence (in that order), or a sequence whose
first three elements look like repository records. -/
def parsedValueRecords : Json → Option (List Json)
  | Json.obj d =>
    match lookupSeq "items" d with
    | some l => some l
    | none =>
      match lookupSeq "repositories" d with
      | some l => some l
      | none => lookupSeq "data" d
  | Json.arr l => if (l.take 3).all isRepoDict then some l else none
  | _ => none

/-- One iteration of the content-item loop of source lines 172-195: a dict
item with a `text` field has its text parsed by `json.loads` (parameter
`p`; a non-string `text` makes `json.loads` raise, and the bare
`except: pass` turns every raise into "this item yields nothing"). -/
def contentItemRecords (p : String → Option Json) : Json → Option (List Json)
  | Json.obj fields =>
    match jLookup "text" fields with
    | some (Json.str t) => (p t).bind parsedValueRecords
    | some _ => none
    | none => none
  | _ => none

/-- Source lines 149-202, `extract_repos_from_response` (the spec's
`extract_records`): sequence envelopes are returned whole when the first
three elements look like repositories; mapping envelopes are resolved
through `items`, `repositories`, the `content` loop, and — only when no
`content` sequence is present, because the source pairs the two checks with
`elif` — the `data` field. -/
def extract_repos_from_response (p : String → Option Json) : Json → List Json
  | Json.arr items => if (items.take 3).all isRepoDict then items else []
  | Json.obj fields =>
    match lookupSeq "items" fields with
    | some l => l
    | none =>
      match lookupSeq "repositories" fields with
      | some l => l
      | none =>
        match lookupSeq "content" fields with
        | some cs => (firstSome (contentItemRecords p) cs).getD []
        | none =>
          match lookupSeq "data" fields with
          | some l => l
          | none => []
  | _ => []

/-! String helpers modelling the Python `str` operations used by the
decoders. They operate on `List Char`, with `String.mk`/`String.data`
wrappers at the boundary. -/

/-- The ASCII core of Python's whitespace class (space, tab, newline,
carriage return, vertical tab, form feed). -/
def isSpaceChar (c : Char) : Bool :=
  c = ' ' || c = '\t' || c = '\n' || c = '\r' || c.toNat = 0xb || c.toNat = 0xc

/-- Python `s.strip()`: drop whitespace from both ends. -/
def pyStrip (s : String) : String :=
  String.mk (((s.data.dropWhile isSpaceChar).reverse.dropWhile isSpaceChar).reverse)

/-- Python `s.replace("\n", "")`: the pattern is a single character, so
left-to-right non-overlapping removal coincides with filtering. -/
def removeNewlines (s : String) : String :=
  String.mk (s.data.filter (fun c => c ≠ '\n'))

/-- Python `s.replace("\\n", "")` with the two-character pattern
backslash-`n`, scanning left to right and skipping past each match. -/
def removeEscapedNewlineChars : List Char → List Char
  | [] => []
  | '\\' :: 'n' :: rest => removeEscapedNewlineChars rest
  | c :: rest => c :: removeEscapedNewlineChars rest

/-- String wrapper for `removeEscapedNewlineChars`. -/
def removeEscapedNewline (s : String) : String :=
  String.mk (removeEscapedNewlineChars s.data)

/-- Python `s.startswith(t)` for a one-character prefix `t`. -/
def strStartsWithChar (s : String) (c : Char) : Bool :=
  match s.data with
  | x :: _ => x = c
  | [] => false

/-! Base64, modelling `base64.b64decode` (default `validate=False`, which
discards characters outside the alphabet before decoding, does not check
the leftover bits of a final partial group, and requires well-formed `=`
padding) together with the standard encoder used to state the round-trip
property. Bytes are `Nat`s below 256. -/

/-- Position of a character in the standard base64 alphabet. -/
def b64Index (c : Char) : Option Nat :=
  if 'A' ≤ c ∧ c ≤ 'Z' then some (c.toNat - 65)
  else if 'a' ≤ c ∧ c ≤ 'z' then some (c.toNat - 97 + 26)
  else if '0' ≤ c ∧ c ≤ '9' then some (c.toNat - 48 + 52)
  else if c = '+' then some 62
  else if c = '/' then some 63
  else none

/-- Character of the standard base64 alphabet at position `n < 64`. -/
def b64CharOf (n : Nat) : Char :=
  if n < 26 then Char.ofNat (65 + n)
  else if n < 52 then Char.ofNat (97 + (n - 26))
  else if n < 62 then Char.ofNat (48 + (n - 52))
  else if n = 62 then '+'
  else '/'

/-- Standard base64 encoding of a byte sequence, with `=` padding. -/
def b64EncodeBytes : List Nat → List Char
  | [] => []
  | [a] => [b64CharOf (a / 4), b64CharOf ((a % 4) * 16), '=', '=']
  | [a, b] => [b64CharOf (a / 4), b64CharOf ((a % 4) * 16 + b / 16),
               b64CharOf ((b % 16) * 4), '=']
  | a :: b :: c :: rest =>
      b64CharOf (a / 4) :: b64CharOf ((a % 4) * 16 + b / 16) ::
      b64CharOf ((b % 16) * 4 + c / 64) :: b64CharOf (c % 64) ::
      b64EncodeBytes rest

/-- Decoding of a filtered base64 character stream, four characters at a
time; `=` padding is accepted only at the very end, and the spare low bits
of a final partial group are ignored, as in the non-strict decoder. -/
def b64DecodeQuads : List Char → Option (List Nat)
  | [] => some []
  | c₀ :: c₁ :: c₂ :: c₃ :: rest =>
    match b64Index c₀, b64Index c₁ with
    | some x, some y =>
      if c₂ = '=' then
        if c₃ = '=' ∧ rest = [] then some [x * 4 + y / 16] else none
      else
        match b64Index c₂ with
        | some z =>
          if c₃ = '=' then
            if rest = [] then some [x * 4 + y / 16, (y % 16) * 16 + z / 4] else none
          else
            match b64Index c₃ with
            | some w =>
              (b64DecodeQuads rest).map
                (fun bs => (x * 4 + y / 16) :: ((y % 16) * 16 + z / 4) :: ((z % 4) * 64 + w) :: bs)
            | none => none
        | none => none
    | _, _ => none
  | _ => none

/-- Whether the non-strict decoder keeps a character: alphabet or padding. -/
def b64Keep (c : Char) : Bool :=
  (b64Index c).isSome || c = '='

/-- `base64.b64decode` on a `str` argument: discard characters that are
neither alphabet nor padding, then decode in groups of four. Failure
(`binascii.Error`) is `none`. -/
def b64DecodeString (s : String) : Option (List Nat) :=
  b64DecodeQuads (s.data.filter b64Keep)

/-! UTF-8, modelling `bytes.decode("utf-8")` (strict: rejects truncated
sequences, continuation errors, overlong forms and surrogates) and
`str.encode("utf-8")` for the round-trip statement. -/

/-- UTF-8 encoding of one character. -/
def utf8EncodeChar (c : Char) : List Nat :=
  let n := c.toNat
  if n < 0x80 then [n]
  else if n < 0x800 then [0xc0 + n / 64, 0x80 + n % 64]
  else if n < 0x10000 then
    [0xe0 + n / 4096, 0x80 + (n / 64) % 64, 0x80 + n % 64]
  else
    [0xf0 + n / 0x40000, 0x80 + (n / 4096) % 64, 0x80 + (n / 64) % 64, 0x80 + n % 64]

/-- UTF-8 encoding of a character list. -/
def utf8EncodeList : List Char → List Nat
  | [] => []
  | c :: cs => utf8EncodeChar c ++ utf8EncodeList cs

/-- Python `s.encode("utf-8")`. -/
def utf8EncodeString (s : String) : List Nat :=
  utf8EncodeList s.data

/-- Strict UTF-8 decoding of a byte list; `none` models a raised
`UnicodeDecodeError`. Continuation bytes lie in `[0x80, 0xc0)`; overlong
forms (lead `0xc0`/`0xc1`, or a too-small first continuation after `0xe0`
or `0xf0`), surrogates (lead `0xed` with a large continuation) and
out-of-range sequences (lead `0xf4` with a large continuation, or a lead
above `0xf4`) are rejected. -/
def utf8DecodeList : List Nat → Option (List Char)
  | [] => some []
  | b₀ :: rest =>
    if b₀ < 0x80 then
      (utf8DecodeList rest).map (fun cs => Char.ofNat b₀ :: cs)
    else if b₀ < 0xc2 then none
    else
      match rest with
      | [] => none
      | b₁ :: rest₂ =>
        if b₀ < 0xe0 then
          if 0x80 ≤ b₁ ∧ b₁ < 0xc0 then
            (utf8DecodeList rest₂).map
              (fun cs => Char.ofNat ((b₀ - 0xc0) * 64 + (b₁ - 0x80)) :: cs)
          else none
        else
          match rest₂ with
          | [] => none
          | b₂ :: rest₃ =>
            if b₀ < 0xf0 then
              if ((0x80 ≤ b₁ ∧ b₁ < 0xc0) ∧ (0x80 ≤ b₂ ∧ b₂ < 0xc0))
                  ∧ ¬(b₀ = 0xe0 ∧ b₁ < 0xa0) ∧ ¬(b₀ = 0xed ∧ 0xa0 ≤ b₁) then
                (utf8DecodeList rest₃).map
                  (fun cs => Char.ofNat ((b₀ - 0xe0) * 4096 + (b₁ - 0x80) * 64 + (b₂ - 0x80)) :: cs)
              else none
            else if b₀ < 0xf5 then
              match rest₃ with
              | [] => none
              | b₃ :: rest₄ =>
                if ((0x80 ≤ b₁ ∧ b₁ < 0xc0) ∧ (0x80 ≤ b₂ ∧ b₂ < 0xc0) ∧ (0x80 ≤ b₃ ∧ b₃ < 0xc0))
                    ∧ ¬(b₀ = 0xf0 ∧ b₁ < 0x90) ∧ ¬(b₀ = 0xf4 ∧ 0x90 ≤ b₁) then
                  (utf8DecodeList rest₄).map
                    (fun cs => Char.ofNat ((b₀ - 0xf0) * 0x40000 + (b₁ - 0x80) * 4096
                      + (b₂ - 0x80) * 64 + (b₃ - 0x80)) :: cs)
                else none
            else none

/-- `base64.b64decode(s).decode("utf-8")` as one fallible step; `none`
models either a `binascii.Error` or a `UnicodeDecodeError`. -/
def b64utf8Decode (s : String) : Option String :=
  (b64DecodeString s).bind (fun bs => (utf8DecodeList bs).map String.mk)

/-- The string base64-encoding of `s`, i.e.
`base64.b64encode(s.encode("utf-8")).decode("ascii")`, used to state the
round-trip property. -/
def pyB64OfString (s : String) : String :=
  String.mk (b64EncodeBytes (utf8EncodeString s))

/-! The regular-expression search of source lines 338-339 and 628:
`re.search(r'"content"\s*:\s*"([^"]+)"', raw_text)`. The pattern has no
alternation and its single greedy class `[^"]+` is followed by `"`, so a
match at a position is: the literal `"content"`, whitespace, `:`,
whitespace, `"`, then a maximal nonempty run of non-quote characters
followed by `"`; `re.search` returns the leftmost such match's captured
group. -/

/-- Attempt to strip an exact character-list prefix. -/
def stripPrefixChars : List Char → List Char → Option (List Char)
  | [], l => some l
  | _ :: _, [] => none
  | c :: cs, x :: xs => if x = c then stripPrefixChars cs xs else none

/-- Match the pattern anchored at the head of the character list,
returning the captured group. -/
def matchContentAt (l : List Char) : Option String :=
  match stripPrefixChars ('"' :: 'c' :: 'o' :: 'n' :: 't' :: 'e' :: 'n' :: 't' :: '"' :: []) l with
  | none => none
  | some l₁ =>
    match l₁.dropWhile isSpaceChar with
    | ':' :: l₂ =>
      match l₂.dropWhile isSpaceChar with
      | '"' :: l₃ =>
        let cap := l₃.takeWhile (fun c => c ≠ '"')
        if cap.isEmpty then none
        else
          match l₃.dropWhile (fun c => c ≠ '"') with
          | '"' :: _ => some (String.mk cap)
          | _ => none
      | _ => none
    | _ => none

/-- Scan left to right for the first position where the pattern matches. -/
def reSearchContentAux : List Char → Option String
  | [] => none
  | c :: rest =>
    match matchContentAt (c :: rest) with
    | some g => some g
    | none => reSearchContentAux rest

/-- `re.search(r'"content"\s*:\s*"([^"]+)"', s)`, as the captured group of
the leftmost match. -/
def reSearchContent (s : String) : Option String :=
  reSearchContentAux s.data

/-! The content decoders. `extract_file_content` (source lines 594-697)
and the inline decoder of `get_readme_content` (lines 321-448) operate on
the `result` value of a response line; the embeddings below start from
that value (`result`), after the response-line selection that both
functions perform first. -/

/-- One iteration of the regex-first loop (source lines 619-646 and
330-362, identical in both functions): a dict item with a string `text`
field is searched for the embedded pattern; on a match the captured group
has escaped newlines removed and is base64-decoded as UTF-8. The loop
breaks only on decode success; a decode failure, a missing match, or the
`TypeError` of searching a non-string (caught by the enclosing
`except`) all advance to the next item. -/
def itemRegexDecode : Json → Option String
  | Json.obj fields =>
    match jLookup "text" fields with
    | some (Json.str raw) =>
      match reSearchContent raw with
      | some g => b64utf8Decode (removeEscapedNewline g)
      | none => none
    | some _ => none
    | none => none
  | _ => none

/-- The regex-first stage (source lines 614-646 and 325-362): only a
mapping whose `content` field is a sequence is scanned. -/
def regexStage : Json → Option String
  | Json.obj fields =>
    match lookupSeq "content" fields with
    | some items => firstSome itemRegexDecode items
    | none => none
  | _ => none

/-- Falsiness of the `file_content` variable at the `if not file_content:`
guards (source lines 649 and 365): `None` and the empty string both
re-enter the fallback chain. -/
def isFalsyOpt : Option String → Bool
  | none => true
  | some s => s.data.isEmpty

/-- The `except` handler of Format 2 in `extract_file_content` (source
lines 676-690): when the raw `text` is a string starting with a brace or
bracket, re-parse it and pretty-print (`json.dumps(..., indent=2)`,
abstracted as `dmp`); if that parse also fails, use the raw text itself. -/
def format2Handler (p : String → Option Json) (dmp : Json → String) (tval : Json) :
    Option String :=
  match tval with
  | Json.str raw =>
    if strStartsWithChar raw (Char.ofNat 123) || strStartsWithChar raw (Char.ofNat 91) then
      match p raw with
      | some v => some (dmp v)
      | none => some raw
    else none
  | _ => none

/-- One iteration of Format 2 of `extract_file_content` (source lines
664-690): clean the item's `text` of literal and escaped newlines, strip
it, JSON-parse it, and when the parse yields a mapping with a `content`
field, base64-decode that field. Any exception in the `try` body — a
non-string `text`, a parse failure, or a decode failure — falls to the
handler. -/
def format2Item (p : String → Option Json) (dmp : Json → String) : Json → Option String
  | Json.obj fields =>
    match jLookup "text" fields with
    | some (Json.str raw) =>
      let text := pyStrip (removeEscapedNewline (removeNewlines raw))
      match p text with
      | some (Json.obj d) =>
        match jLookup "content" d with
        | some (Json.str b64s) =>
          match b64utf8Decode b64s with
          | some fc => some fc
          | none => format2Handler p dmp (Json.str raw)
        | some _ => format2Handler p dmp (Json.str raw)
        | none => none
      | some _ => none
      | none => format2Handler p dmp (Json.str raw)
    | some _ => none
    | none => none
  | _ => none

/-- The fallback formats of `extract_file_content` (source lines 652-690).
Format 1 (a mapping with a `content` field) and Format 2 (a non-empty
sequence) are joined by `elif`, so a mapping whose `content` field is not
a string matches Format 1's guard, does nothing, and skips Format 2. -/
def fileFormats (p : String → Option Json) (dmp : Json → String) : Json → Option String
  | Json.obj fields =>
    match jLookup "content" fields with
    | some (Json.str s) => b64utf8Decode s
    | some _ => none
    | none => none
  | Json.arr items =>
    if items.isEmpty then none else firstSome (format2Item p dmp) items
  | _ => none

/-- Source lines 594-697, the extraction core of `extract_file_content`
(the spec's `extract_text`), on the `result` value: the regex stage first,
then — when the variable is still falsy — the format chain, keeping the
regex stage's value when the chain yields nothing. -/
def extract_file_content (p : String → Option Json) (dmp : Json → String)
    (result : Json) : Option String :=
  let fc := regexStage result
  if isFalsyOpt fc then
    match fileFormats p dmp result with
    | some v => some v
    | none => fc
  else fc

/-- One iteration of Format 2 of `get_readme_content` (source lines
383-406): like `format2Item` but the `except` handler only logs, so every
exception simply advances to the next item. -/
def readmeFormat2Item (p : String → Option Json) : Json → Option String
  | Json.obj fields =>
    match jLookup "text" fields with
    | some (Json.str raw) =>
      let text := pyStrip (removeEscapedNewline (removeNewlines raw))
      match p text with
      | some (Json.obj d) =>
        match jLookup "content" d with
        | some (Json.str b64s) => b64utf8Decode b64s
        | some _ => none
        | none => none
      | some _ => none
      | none => none
    | some _ => none
    | none => none
  | _ => none

/-- The fallback formats of `get_readme_content` (source lines 370-448).
Format 1 (line 371: a mapping with a `content` field), Format 2 (line
382: a non-empty sequence) and Format 3 (lines 409-413: a mapping whose
`content` field is a sequence, carrying the bare-string and
heading-heuristic fallbacks) are one `if`/`elif` chain; Format 3's guard
strictly implies Format 1's, so the Format 3 body — including the
heading-marker fallback of lines 444-448 — is unreachable and does not
appear in the semantics. -/
def readmeFormats (p : String → Option Json) : Json → Option String
  | Json.obj fields =>
    match jLookup "content" fields with
    | some (Json.str s) => b64utf8Decode s
    | some _ => none
    | none => none
  | Json.arr items =>
    if items.isEmpty then none else firstSome (readmeFormat2Item p) items
  | _ => none

/-- Source lines 321-448, the extraction core of `get_readme_content` on
the `result` value: the regex stage (identical to the one of
`extract_file_content`), then the readme format chain. -/
def get_readme_decoded (p : String → Option Json) (result : Json) : Option String :=
  let dc := regexStage result
  if isFalsyOpt dc then
    match readmeFormats p result with
    | some v => some v
    | none => dc
  else dc

/-! Exception-explicit versions. Each fallible library call is given an
`Except`-valued form whose `Except.error` is a raised Python exception,
and the extraction functions are rebuilt with the `try`/`except` blocks of
the source made explicit; that an exception never escapes the component is
then the theorem that these versions always return `Except.ok` of the pure
versions' results. -/

/-- A raised Python exception, by name. -/
abbrev PyExc := String

/-- `json.loads(x)`: raises `JSONDecodeError` on an unparsable string and
`TypeError` on a non-string argument. -/
def jsonLoadsE (p : String → Option Json) : Json → Except PyExc Json
  | Json.str s =>
    match p s with
    | some v => Except.ok v
    | none => Except.error "JSONDecodeError"
  | _ => Except.error "TypeError"

/-- `base64.b64decode(x).decode("utf-8")`: raises on a non-string
argument, an invalid base64 payload, or invalid UTF-8. -/
def b64utf8DecodeE : Json → Except PyExc String
  | Json.str s =>
    match b64utf8Decode s with
    | some t => Except.ok t
    | none => Except.error "binascii.Error"
  | _ => Except.error "TypeError"

/-- `re.search` on the fixed pattern: raises `TypeError` on a non-string
subject. -/
def reSearchE : Json → Except PyExc (Option String)
  | Json.str s => Except.ok (reSearchContent s)
  | _ => Except.error "TypeError"

/-- A bare `except:`/`except Exception:` block whose handler produces
`h e`: the caught control flow of the source. -/
def pyCatch {α : Type} (body : Except PyExc α) (h : PyExc → α) : α :=
  match body with
  | Except.ok v => v
  | Except.error e => h e

/-- `firstSome` over an exception-aware body: the loop propagates an
uncaught exception and otherwise breaks at the first success. -/
def firstSomeE {α : Type} (f : Json → Except PyExc (Option α)) :
    List Json → Except PyExc (Option α)
  | [] => Except.ok none
  | x :: xs =>
    match f x with
    | Except.error e => Except.error e
    | Except.ok (some r) => Except.ok (some r)
    | Except.ok none => firstSomeE f xs

/-- Exception-explicit `contentItemRecords`: the `try` body parses the
`text` field and inspects the result; the bare `except: pass` of source
lines 194-195 catches everything. -/
def contentItemRecordsE (p : String → Option Json) : Json → Except PyExc (Option (List Json))
  | Json.obj fields =>
    match jLookup "text" fields with
    | some tval =>
      Except.ok (pyCatch ((jsonLoadsE p tval).map parsedValueRecords) (fun _ => none))
    | none => Except.ok none
  | _ => Except.ok none

/-- Exception-explicit `extract_repos_from_response`. -/
def extract_repos_from_responseE (p : String → Option Json) :
    Json → Except PyExc (List Json)
  | Json.arr items =>
    Except.ok (if (items.take 3).all isRepoDict then items else [])
  | Json.obj fields =>
    match lookupSeq "items" fields with
    | some l => Except.ok l
    | none =>
      match lookupSeq "repositories" fields with
      | some l => Except.ok l
      | none =>
        match lookupSeq "content" fields with
        | some cs =>
          (firstSomeE (contentItemRecordsE p) cs).map (fun r => r.getD [])
        | none =>
          match lookupSeq "data" fields with
          | some l => Except.ok l
          | none => Except.ok []
  | _ => Except.ok []

/-- Exception-explicit regex-loop iteration: the outer `try` (source lines
621-646) wraps the search and the inner decode `try` (lines 634-644)
catches only the decode. -/
def itemRegexDecodeE : Json → Except PyExc (Option String)
  | Json.obj fields =>
    match jLookup "text" fields with
    | some tval =>
      Except.ok (pyCatch
        ((reSearchE tval).map (fun m =>
          match m with
          | some g =>
            pyCatch ((b64utf8DecodeE (Json.str (removeEscapedNewline g))).map some)
              (fun _ => none)
          | none => none))
        (fun _ => none))
    | none => Except.ok none
  | _ => Except.ok none

/-- Exception-explicit regex stage. -/
def regexStageE : Json → Except PyExc (Option String)
  | Json.obj fields =>
    match lookupSeq "content" fields with
    | some items => firstSomeE itemRegexDecodeE items
    | none => Except.ok none
  | _ => Except.ok none

/-- The `try` body of Format 2 of `extract_file_content` (source lines
666-675): clean and strip the text (raising `TypeError` on a non-string),
parse it, and decode the `content` field of a parsed mapping. -/
def format2TryBodyE (p : String → Option Json) : Json → Except PyExc (Option String)
  | Json.str raw =>
    let text := pyStrip (removeEscapedNewline (removeNewlines raw))
    match jsonLoadsE p (Json.str text) with
    | Except.error e => Except.error e
    | Except.ok (Json.obj d) =>
      match jLookup "content" d with
      | some cv => (b64utf8DecodeE cv).map some
      | none => Except.ok none
    | Except.ok _ => Except.ok none
  | _ => Except.error "TypeError"

/-- Exception-explicit Format 2 iteration of `extract_file_content`: the
`except Exception` of source line 676 routes every failure of the body to
the handler (whose own inner `try` catches the only exception it can
raise, a `JSONDecodeError`). -/
def format2ItemE (p : String → Option Json) (dmp : Json → String) :
    Json → Except PyExc (Option String)
  | Json.obj fields =>
    match jLookup "text" fields with
    | some tval =>
      Except.ok (pyCatch (format2TryBodyE p tval)
          (fun _ => format2Handler p dmp tval))
    | none => Except.ok none
  | _ => Except.ok none

/-- Exception-explicit format chain of `extract_file_content`: Format 1's
`try` (source lines 655-660) catches its decode failure. -/
def fileFormatsE (p : String → Option Json) (dmp : Json → String) :
    Json → Except PyExc (Option String)
  | Json.obj fields =>
    match jLookup "content" fields with
    | some cv =>
      Except.ok (pyCatch
        (match cv with
         | Json.str s => (b64utf8DecodeE (Json.str s)).map some
         | _ => Except.ok none)
        (fun _ => none))
    | none => Except.ok none
  | Json.arr items =>
    if items.isEmpty then Except.ok none else firstSomeE (format2ItemE p dmp) items
  | _ => Except.ok none

/-- Exception-explicit `extract_file_content`. -/
def extract_file_contentE (p : String → Option Json) (dmp : Json → String)
    (result : Json) : Except PyExc (Option String) :=
  match regexStageE result with
  | Except.error e => Except.error e
  | Except.ok fc =>
    if isFalsyOpt fc then
      match fileFormatsE p dmp result with
      | Except.error e => Except.error e
      | Except.ok (some v) => Except.ok (some v)
      | Except.ok none => Except.ok fc
    else Except.ok fc

/-! Concrete instantiations used by the claim witnesses and
counterexamples. -/

/-- A parser that fails on every string (no text parses as JSON). -/
def pNone : String → Option Json := fun _ => none

/-- A trivial pretty-printer standing in for `json.dumps(..., indent=2)`. -/
def dmpEmpty : Json → String := fun _ => ""

/-- The failing input of C2: a mapping whose `content` sequence holds one
item with the raw markdown text `"# Title\nBody"`. -/
def headingEnvelope : Json :=
  Json.obj [("content", Json.arr [Json.obj [("text", Json.str "# Title\nBody")]])]

/-- Printable characters, for the round-trip statement. -/
def isPrintableChar (c : Char) : Bool :=
  decide (0x20 ≤ c.toNat) && decide (c.toNat ≠ 0x7f)

/-- The parser of the C5 witness: only the text "good" parses. -/
def pC5 : String → Option Json := fun s =>
  if s = "good" then
    some (Json.obj [("repositories", Json.arr [Json.obj [("full_name", Json.str "a/b")]])])
  else none

/-- A minimal record-like mapping, carrying the identifying key. -/
def repoRecord : Json := Json.obj [("full_name", Json.str "a/b")]

/-! Agreement of the exception-explicit versions with the pure versions:
every raise site of the source sits inside a `try`, so the `Except`-valued
functions always return `Except.ok` of the pure results. -/

theorem firstSomeE_eq {α : Type} (fE : Json → Except PyExc (Option α))
    (f : Json → Option α) (l : List Json)
    (h : ∀ x ∈ l, fE x = Except.ok (f x)) :
    firstSomeE fE l = Except.ok (firstSome f l) := by
  induction l with
  | nil => rfl
  | cons x xs ih =>
    have hx := h x (List.mem_cons_self x xs)
    have hxs : ∀ y ∈ xs, fE y = Except.ok (f y) :=
      fun y hy => h y (List.mem_cons_of_mem x hy)
    simp only [firstSomeE, firstSome, hx]
    cases f x with
    | some r => rfl
    | none => exact ih hxs

theorem contentItemRecordsE_eq (p : String → Option Json) (item : Json) :
    contentItemRecordsE p item = Except.ok (contentItemRecords p item) := by
  cases item <;> try rfl
  case obj fields =>
    simp only [contentItemRecordsE, contentItemRecords]
    cases htv : jLookup "text" fields with
    | none => rfl
    | some tval =>
      cases tval <;> try rfl
      case str s =>
        simp only [jsonLoadsE]
        cases hp : p s <;> simp [pyCatch, Except.map, hp]

theorem extract_repos_from_responseE_eq (p : String → Option Json) (e : Json) :
    extract_repos_from_responseE p e = Except.ok (extract_repos_from_response p e) := by
  cases e <;> try rfl
  case obj fields =>
    simp only [extract_repos_from_responseE, extract_repos_from_response]
    cases lookupSeq "items" fields with
    | some l => rfl
    | none =>
      cases lookupSeq "repositories" fields with
      | some l => rfl
      | none =>
        cases lookupSeq "content" fields with
        | some cs =>
          dsimp only []
          rw [firstSomeE_eq (contentItemRecordsE p) (contentItemRecords p) cs
            (fun x _ => contentItemRecordsE_eq p x)]
          rfl
        | none =>
          cases lookupSeq "data" fields with
          | some l => rfl
          | none => rfl

theorem itemRegexDecodeE_eq (item : Json) :
    itemRegexDecodeE item = Except.ok (itemRegexDecode item) := by
  cases item <;> try rfl
  case obj fields =>
    simp only [itemRegexDecodeE, itemRegexDecode]
    cases htv : jLookup "text" fields with
    | none => rfl
    | some tval =>
      cases tval <;> try rfl
      case str s =>
        simp only [reSearchE, pyCatch, Except.map]
        cases reSearchContent s with
        | none => rfl
        | some g =>
          simp only [b64utf8DecodeE]
          cases b64utf8Decode (removeEscapedNewline g) <;> rfl

theorem regexStageE_eq (e : Json) :
    regexStageE e = Except.ok (regexStage e) := by
  cases e <;> try rfl
  case obj fields =>
    simp only [regexStageE, regexStage]
    cases lookupSeq "content" fields with
    | some items =>
      exact firstSomeE_eq itemRegexDecodeE itemRegexDecode items
        (fun x _ => itemRegexDecodeE_eq x)
    | none => rfl

theorem format2ItemE_eq (p : String → Option Json) (dmp : Json → String) (item : Json) :
    format2ItemE p dmp item = Except.ok (format2Item p dmp item) := by
  cases item <;> try rfl
  case obj fields =>
    simp only [format2ItemE, format2Item]
    cases htv : jLookup "text" fields with
    | none => rfl
    | some tval =>
      cases tval <;> try rfl
      case str raw =>
        simp only [format2TryBodyE, jsonLoadsE]
        cases hp : p (pyStrip (removeEscapedNewline (removeNewlines raw))) with
        | none => rfl
        | some v =>
          cases v <;> try rfl
          case obj d =>
            dsimp only []
            cases hc : jLookup "content" d with
            | none => rfl
            | some cv =>
              cases cv <;> try rfl
              case str b64s =>
                simp only [b64utf8DecodeE]
                cases b64utf8Decode b64s <;> rfl

theorem fileFormatsE_eq (p : String → Option Json) (dmp : Json → String) (e : Json) :
    fileFormatsE p dmp e = Except.ok (fileFormats p dmp e) := by
  cases e <;> try rfl
  case obj fields =>
    simp only [fileFormatsE, fileFormats]
    cases hc : jLookup "content" fields with
    | none => rfl
    | some cv =>
      cases cv <;> try rfl
      case str s =>
        simp only [b64utf8DecodeE]
        cases b64utf8Decode s <;> rfl
  case arr items =>
    simp only [fileFormatsE, fileFormats]
    cases items.isEmpty
    · simp only [if_neg Bool.false_ne_true]
      exact firstSomeE_eq (format2ItemE p dmp) (format2Item p dmp) items
        (fun x _ => format2ItemE_eq p dmp x)
    · rfl

/-! Round-trip lemmas: decoding inverts encoding, first for base64 on
byte lists, then for UTF-8, then end to end. -/

theorem b64Index_b64CharOf : ∀ n, n < 64 → b64Index (b64CharOf n) = some n := by decide

theorem b64CharOf_ne_pad : ∀ n, n < 64 → b64CharOf n ≠ '=' := by decide

theorem b64Keep_b64CharOf : ∀ n, n < 64 → b64Keep (b64CharOf n) = true := by decide

theorem b64Keep_pad : b64Keep '=' = true := by decide

theorem b64_filter_encode : ∀ bs : List Nat, (∀ b ∈ bs, b < 256) →
    (b64EncodeBytes bs).filter b64Keep = b64EncodeBytes bs := by
  intro bs
  induction bs using b64EncodeBytes.induct with
  | case1 => intro _; rfl
  | case2 a =>
    intro h
    have ha : a < 256 := h a (by simp)
    simp [b64EncodeBytes, List.filter_cons, b64Keep_b64CharOf _ (by omega : a / 4 < 64),
      b64Keep_b64CharOf _ (by omega : (a % 4) * 16 < 64), b64Keep_pad]
  | case3 a b =>
    intro h
    have ha : a < 256 := h a (by simp)
    have hb : b < 256 := h b (by simp)
    simp [b64EncodeBytes, List.filter_cons, b64Keep_b64CharOf _ (by omega : a / 4 < 64),
      b64Keep_b64CharOf _ (by omega : (a % 4) * 16 + b / 16 < 64),
      b64Keep_b64CharOf _ (by omega : (b % 16) * 4 < 64), b64Keep_pad]
  | case4 a b c rest ih =>
    intro h
    have ha : a < 256 := h a (by simp)
    have hb : b < 256 := h b (by simp)
    have hc : c < 256 := h c (by simp)
    have hrest : ∀ x ∈ rest, x < 256 := fun x hx => h x (by simp [hx])
    simp [b64EncodeBytes, List.filter_cons, b64Keep_b64CharOf _ (by omega : a / 4 < 64),
      b64Keep_b64CharOf _ (by omega : (a % 4) * 16 + b / 16 < 64),
      b64Keep_b64CharOf _ (by omega : (b % 16) * 4 + c / 64 < 64),
      b64Keep_b64CharOf _ (by omega : c % 64 < 64), ih hrest]

theorem b64DecodeQuads_encode : ∀ bs : List Nat, (∀ b ∈ bs, b < 256) →
    b64DecodeQuads (b64EncodeBytes bs) = some bs := by
  intro bs
  induction bs using b64EncodeBytes.induct with
  | case1 => intro _; rfl
  | case2 a =>
    intro h
    have ha : a < 256 := h a (by simp)
    simp [b64EncodeBytes, b64DecodeQuads,
      b64Index_b64CharOf _ (by omega : a / 4 < 64),
      b64Index_b64CharOf _ (by omega : (a % 4) * 16 < 64)]
    omega
  | case3 a b =>
    intro h
    have ha : a < 256 := h a (by simp)
    have hb : b < 256 := h b (by simp)
    simp [b64EncodeBytes, b64DecodeQuads,
      b64Index_b64CharOf _ (by omega : a / 4 < 64),
      b64Index_b64CharOf _ (by omega : (a % 4) * 16 + b / 16 < 64),
      b64Index_b64CharOf _ (by omega : (b % 16) * 4 < 64),
      b64CharOf_ne_pad _ (by omega : (b % 16) * 4 < 64)]
    omega
  | case4 a b c rest ih =>
    intro h
    have ha : a < 256 := h a (by simp)
    have hb : b < 256 := h b (by simp)
    have hc : c < 256 := h c (by simp)
    have hrest : ∀ x ∈ rest, x < 256 := fun x hx => h x (by simp [hx])
    simp [b64EncodeBytes, b64DecodeQuads, ih hrest,
      b64Index_b64CharOf _ (by omega : a / 4 < 64),
      b64Index_b64CharOf _ (by omega : (a % 4) * 16 + b / 16 < 64),
      b64Index_b64CharOf _ (by omega : (b % 16) * 4 + c / 64 < 64),
      b64Index_b64CharOf _ (by omega : c % 64 < 64),
      b64CharOf_ne_pad _ (by omega : (b % 16) * 4 + c / 64 < 64),
      b64CharOf_ne_pad _ (by omega : c % 64 < 64)]
    omega

theorem utf8EncodeChar_lt256 (c : Char) : ∀ b ∈ utf8EncodeChar c, b < 256 := by
  have hv : c.toNat < 0xd800 ∨ (0xdfff < c.toNat ∧ c.toNat < 0x110000) := c.valid
  intro b hb
  simp only [utf8EncodeChar] at hb
  by_cases h1 : c.toNat < 0x80
  · rw [if_pos h1] at hb; simp at hb; omega
  · rw [if_neg h1] at hb
    by_cases h2 : c.toNat < 0x800
    · rw [if_pos h2] at hb; simp at hb; omega
    · rw [if_neg h2] at hb
      by_cases h3 : c.toNat < 0x10000
      · rw [if_pos h3] at hb; simp at hb; omega
      · rw [if_neg h3] at hb; simp at hb; omega

theorem utf8EncodeList_lt256 : ∀ l : List Char, ∀ b ∈ utf8EncodeList l, b < 256 := by
  intro l
  induction l with
  | nil => intro b hb; simp [utf8EncodeList] at hb
  | cons c cs ih =>
    intro b hb
    simp only [utf8EncodeList, List.mem_append] at hb
    rcases hb with hb | hb
    · exact utf8EncodeChar_lt256 c b hb
    · exact ih b hb

theorem utf8_step1 (b₀ : Nat) (bs : List Nat) (h : b₀ < 0x80) :
    utf8DecodeList (b₀ :: bs) =
      (utf8DecodeList bs).map (fun cs => Char.ofNat b₀ :: cs) := by
  rw [utf8DecodeList.eq_def]
  dsimp only []
  rw [if_pos h]

theorem utf8_step2 (b₀ b₁ : Nat) (bs : List Nat)
    (h0 : ¬ b₀ < 0x80) (h1 : ¬ b₀ < 0xc2) (h2 : b₀ < 0xe0)
    (hc : 0x80 ≤ b₁ ∧ b₁ < 0xc0) :
    utf8DecodeList (b₀ :: b₁ :: bs) =
      (utf8DecodeList bs).map (fun cs => Char.ofNat ((b₀ - 0xc0) * 64 + (b₁ - 0x80)) :: cs) := by
  rw [utf8DecodeList.eq_def]
  dsimp only []
  rw [if_neg h0, if_neg h1, if_pos h2, if_pos hc]

theorem utf8_step3 (b₀ b₁ b₂ : Nat) (bs : List Nat)
    (h0 : ¬ b₀ < 0x80) (h1 : ¬ b₀ < 0xc2) (h2 : ¬ b₀ < 0xe0) (h3 : b₀ < 0xf0)
    (hc : ((0x80 ≤ b₁ ∧ b₁ < 0xc0) ∧ (0x80 ≤ b₂ ∧ b₂ < 0xc0))
      ∧ ¬(b₀ = 0xe0 ∧ b₁ < 0xa0) ∧ ¬(b₀ = 0xed ∧ 0xa0 ≤ b₁)) :
    utf8DecodeList (b₀ :: b₁ :: b₂ :: bs) =
      (utf8DecodeList bs).map
        (fun cs => Char.ofNat ((b₀ - 0xe0) * 4096 + (b₁ - 0x80) * 64 + (b₂ - 0x80)) :: cs) := by
  rw [utf8DecodeList.eq_def]
  dsimp only []
  rw [if_neg h0, if_neg h1, if_neg h2, if_pos h3, if_pos hc]

theorem utf8_step4 (b₀ b₁ b₂ b₃ : Nat) (bs : List Nat)
    (h0 : ¬ b₀ < 0x80) (h1 : ¬ b₀ < 0xc2) (h2 : ¬ b₀ < 0xe0) (h3 : ¬ b₀ < 0xf0)
    (h4 : b₀ < 0xf5)
    (hc : ((0x80 ≤ b₁ ∧ b₁ < 0xc0) ∧ (0x80 ≤ b₂ ∧ b₂ < 0xc0) ∧ (0x80 ≤ b₃ ∧ b₃ < 0xc0))
      ∧ ¬(b₀ = 0xf0 ∧ b₁ < 0x90) ∧ ¬(b₀ = 0xf4 ∧ 0x90 ≤ b₁)) :
    utf8DecodeList (b₀ :: b₁ :: b₂ :: b₃ :: bs) =
      (utf8DecodeList bs).map
        (fun cs => Char.ofNat ((b₀ - 0xf0) * 0x40000 + (b₁ - 0x80) * 4096
          + (b₂ - 0x80) * 64 + (b₃ - 0x80)) :: cs) := by
  rw [utf8DecodeList.eq_def]
  dsimp only []
  rw [if_neg h0, if_neg h1, if_neg h2, if_neg h3, if_pos h4, if_pos hc]

theorem utf8DecodeList_encodeChar (c : Char) (bs : List Nat) :
    utf8DecodeList (utf8EncodeChar c ++ bs) =
      (utf8DecodeList bs).map (fun cs => c :: cs) := by
  have hv : c.toNat < 0xd800 ∨ (0xdfff < c.toNat ∧ c.toNat < 0x110000) := c.valid
  simp only [utf8EncodeChar]
  by_cases h1 : c.toNat < 0x80
  · rw [if_pos h1]
    simp only [List.cons_append, List.nil_append]
    rw [utf8_step1 _ _ h1]
    simp only [Char.ofNat_toNat]
  · rw [if_neg h1]
    by_cases h2 : c.toNat < 0x800
    · rw [if_pos h2]
      simp only [List.cons_append, List.nil_append]
      rw [utf8_step2 _ _ _ (by omega) (by omega) (by omega) (by omega)]
      have hA : (0xc0 + c.toNat / 64 - 0xc0) * 64 + (0x80 + c.toNat % 64 - 0x80) = c.toNat := by
        omega
      simp only [hA, Char.ofNat_toNat]
    · rw [if_neg h2]
      by_cases h3 : c.toNat < 0x10000
      · rw [if_pos h3]
        simp only [List.cons_append, List.nil_append]
        rw [utf8_step3 _ _ _ _ (by omega) (by omega) (by omega) (by omega)
          ⟨⟨by omega, by omega⟩, by omega, by omega⟩]
        have hA : (0xe0 + c.toNat / 4096 - 0xe0) * 4096 + (0x80 + c.toNat / 64 % 64 - 0x80) * 64
            + (0x80 + c.toNat % 64 - 0x80) = c.toNat := by omega
        simp only [hA, Char.ofNat_toNat]
      · rw [if_neg h3]
        simp only [List.cons_append, List.nil_append]
        rw [utf8_step4 _ _ _ _ _ (by omega) (by omega) (by omega) (by omega) (by omega)
          ⟨⟨by omega, by omega, by omega⟩, by omega, by omega⟩]
        have hA : (0xf0 + c.toNat / 0x40000 - 0xf0) * 0x40000
            + (0x80 + c.toNat / 4096 % 64 - 0x80) * 4096
            + (0x80 + c.toNat / 64 % 64 - 0x80) * 64
            + (0x80 + c.toNat % 64 - 0x80) = c.toNat := by omega
        simp only [hA, Char.ofNat_toNat]

theorem utf8DecodeList_encodeList : ∀ l : List Char,
    utf8DecodeList (utf8EncodeList l) = some l := by
  intro l
  induction l with
  | nil => rfl
  | cons c cs ih =>
    simp only [utf8EncodeList, utf8DecodeList_encodeChar, ih, Option.map_some']

theorem b64utf8Decode_roundtrip (s : String) :
    b64utf8Decode (pyB64OfString s) = some s := by
  have hbytes : ∀ b ∈ utf8EncodeString s, b < 256 := utf8EncodeList_lt256 s.data
  simp only [b64utf8Decode, pyB64OfString, b64DecodeString]
  rw [b64_filter_encode _ hbytes, b64DecodeQuads_encode _ hbytes]
  simp only [Option.some_bind, utf8EncodeString, utf8DecodeList_encodeList, Option.map_some']

theorem extract_file_contentE_eq (p : String → Option Json) (dmp : Json → String)
    (e : Json) :
    extract_file_contentE p dmp e = Except.ok (extract_file_content p dmp e) := by
  simp only [extract_file_contentE, extract_file_content, regexStageE_eq e]
  cases regexStage e with
  | none =>
    simp only [isFalsyOpt, if_pos rfl, fileFormatsE_eq p dmp e]
    cases fileFormats p dmp e <;> rfl
  | some s =>
    simp only [isFalsyOpt]
    by_cases hs : s.data.isEmpty = true
    · simp only [if_pos hs, fileFormatsE_eq p dmp e]
      cases fileFormats p dmp e <;> rfl
    · simp only [if_neg hs]

/-! Helper lemmas and concrete instantiations for the claims. -/

theorem lookupSeq_some {k : String} {fields : List (String × Json)} {l : List Json}
    (h : lookupSeq k fields = some l) : jLookup k fields = some (Json.arr l) := by
  unfold lookupSeq at h
  cases hj : jLookup k fields with
  | none => rw [hj] at h; cases h
  | some v =>
    rw [hj] at h
    cases v <;> simp_all

theorem firstSome_append_none {α : Type} (f : Json → Option α) (pre rest : List Json)
    (h : ∀ c ∈ pre, f c = none) :
    firstSome f (pre ++ rest) = firstSome f rest := by
  induction pre with
  | nil => rfl
  | cons x xs ih =>
    have hx := h x (by simp)
    simp only [List.cons_append, firstSome, hx]
    exact ih (fun c hc => h c (by simp [hc]))

theorem firstSome_none {α : Type} (f : Json → Option α) (l : List Json)
    (h : ∀ c ∈ l, f c = none) : firstSome f l = none := by
  induction l with
  | nil => rfl
  | cons x xs ih =>
    have hx := h x (by simp)
    simp only [firstSome, hx]
    exact ih (fun c hc => h c (by simp [hc]))

/-! The claims. -/

/-- C1 (amended): for every envelope that is a mapping with no `items`
sequence field, no `repositories` sequence field and no `content` sequence
field, if it has a `data` field that is a sequence, `extract_records`
returns that sequence. (As originally stated the claim also covered
envelopes whose `content` field is a sequence yielding no records; the
source pairs the `content` and `data` checks with `elif`, so in that case
the `data` field is never consulted and the empty sequence is returned —
see the counterexample.) -/
theorem claim_C1 (p : String → Option Json) (fields : List (String × Json)) (l : List Json)
    (hI : lookupSeq "items" fields = none)
    (hR : lookupSeq "repositories" fields = none)
    (hC : lookupSeq "content" fields = none)
    (hD : lookupSeq "data" fields = some l) :
    extract_repos_from_response p (Json.obj fields) = l := by
  simp [extract_repos_from_response, hI, hR, hC, hD]

/-- C1 counterexample: an envelope whose `content` field is a sequence
producing no records and whose `data` field is a nonempty sequence; the
claim as stated demands the `data` sequence, but the code returns the
empty sequence. -/
theorem claim_C1_counterexample :
    extract_repos_from_response pNone
        (Json.obj [("content", Json.arr []), ("data", Json.arr [Json.null])]) = []
    ∧ ([] : List Json) ≠ [Json.null] :=
  ⟨rfl, by simp⟩

/-- Witness for C1 at a concrete envelope `{"data": [null]}`. -/
theorem claim_C1_witness :
    lookupSeq "content" [("data", Json.arr [Json.null])] = none
    ∧ lookupSeq "data" [("data", Json.arr [Json.null])] = some [Json.null]
    ∧ extract_repos_from_response pNone (Json.obj [("data", Json.arr [Json.null])])
      = [Json.null] :=
  ⟨rfl, rfl, claim_C1 pNone _ _ rfl rfl rfl rfl⟩

/-- C2 evaluation: on the heading envelope both content decoders return
`none`, not the raw text. The heading-marker fallback of source lines
444-448 sits in the Format 3 branch (lines 409-413) of an `elif` chain
whose Format 1 guard (line 371) already accepts every mapping with a
`content` field, so that branch is unreachable; `extract_file_content`
has no heading branch at all. -/
theorem claim_C2_code_eval :
    get_readme_decoded pNone headingEnvelope = none
    ∧ extract_file_content pNone dmpEmpty headingEnvelope = none :=
  ⟨rfl, rfl⟩

/-- C3: the decoders raise no exception on any decoded JSON input: the
exception-explicit versions always return `Except.ok` of the pure results,
and on an envelope whose `content` items all defeat the regex stage the
text decoder returns an absent result. -/
theorem claim_C3 (p : String → Option Json) (dmp : Json → String)
    (fields : List (String × Json)) (cs : List Json)
    (h₁ : lookupSeq "content" fields = some cs)
    (h₂ : ∀ c ∈ cs, itemRegexDecode c = none) :
    extract_file_content p dmp (Json.obj fields) = none
    ∧ (∀ e, extract_file_contentE p dmp e = Except.ok (extract_file_content p dmp e))
    ∧ (∀ e, extract_repos_from_responseE p e = Except.ok (extract_repos_from_response p e)) := by
  refine ⟨?_, fun e => extract_file_contentE_eq p dmp e,
    fun e => extract_repos_from_responseE_eq p e⟩
  have hstage : regexStage (Json.obj fields) = none := by
    simp [regexStage, h₁, firstSome_none _ _ h₂]
  have hfmt : fileFormats p dmp (Json.obj fields) = none := by
    simp [fileFormats, lookupSeq_some h₁]
  simp [extract_file_content, hstage, hfmt, isFalsyOpt]

/-- Witness for C3 at a concrete envelope with one undecodable item. -/
theorem claim_C3_witness :
    (∀ c ∈ [Json.obj [("text", Json.str "notjson")]], itemRegexDecode c = none)
    ∧ extract_file_content pNone dmpEmpty
        (Json.obj [("content", Json.arr [Json.obj [("text", Json.str "notjson")]])])
      = none := by
  have h₂ : ∀ c ∈ [Json.obj [("text", Json.str "notjson")]], itemRegexDecode c = none := by
    intro c hc
    simp only [List.mem_singleton] at hc
    subst hc
    rfl
  exact ⟨h₂, (claim_C3 pNone dmpEmpty
    [("content", Json.arr [Json.obj [("text", Json.str "notjson")]])]
    [Json.obj [("text", Json.str "notjson")]] rfl h₂).1⟩

/-- C4: for every printable string `s`, a mapping envelope whose `content`
field holds the base64 encoding of `s` decodes back to exactly `s`. -/
theorem claim_C4 (p : String → Option Json) (dmp : Json → String) (s : String)
    (hs : ∀ c ∈ s.data, isPrintableChar c = true) :
    extract_file_content p dmp (Json.obj [("content", Json.str (pyB64OfString s))])
      = some s := by
  have hstage : regexStage (Json.obj [("content", Json.str (pyB64OfString s))]) = none := rfl
  have hfmt : fileFormats p dmp (Json.obj [("content", Json.str (pyB64OfString s))])
      = some s := b64utf8Decode_roundtrip s
  simp [extract_file_content, hstage, hfmt, isFalsyOpt]

/-- Witness for C4 at `s = "Hello"`. -/
theorem claim_C4_witness :
    (∀ c ∈ ("Hello" : String).data, isPrintableChar c = true)
    ∧ extract_file_content pNone dmpEmpty
        (Json.obj [("content", Json.str (pyB64OfString "Hello"))]) = some "Hello" :=
  ⟨by decide, claim_C4 pNone dmpEmpty "Hello" (by decide)⟩

/-- C5: when the envelope reaches the `content` strategy and some item's
`text` parses to a mapping exposing an `items`, `repositories` or `data`
sequence (`parsedValueRecords`), `extract_records` returns that nested
sequence; earlier items that yield nothing — parse failures included —
are skipped without aborting. -/
theorem claim_C5 (p : String → Option Json) (fields : List (String × Json))
    (pre post : List Json) (ifields : List (String × Json)) (t : String) (v : Json)
    (r : List Json)
    (hI : lookupSeq "items" fields = none)
    (hR : lookupSeq "repositories" fields = none)
    (hC : lookupSeq "content" fields = some (pre ++ Json.obj ifields :: post))
    (hpre : ∀ c ∈ pre, contentItemRecords p c = none)
    (ht : jLookup "text" ifields = some (Json.str t))
    (hp : p t = some v)
    (hv : parsedValueRecords v = some r) :
    extract_repos_from_response p (Json.obj fields) = r := by
  have hitem : contentItemRecords p (Json.obj ifields) = some r := by
    simp [contentItemRecords, ht, hp, hv]
  simp [extract_repos_from_response, hI, hR, hC,
    firstSome_append_none (contentItemRecords p) pre _ hpre, firstSome, hitem]

/-- Witness for C5: the first item's text fails to parse, the second
exposes a `repositories` sequence, which is returned. -/
theorem claim_C5_witness :
    pC5 "good" = some (Json.obj [("repositories",
        Json.arr [Json.obj [("full_name", Json.str "a/b")]])])
    ∧ extract_repos_from_response pC5
        (Json.obj [("content", Json.arr
          [Json.obj [("text", Json.str "bad")], Json.obj [("text", Json.str "good")]])])
      = [Json.obj [("full_name", Json.str "a/b")]] := by
  have hpre : ∀ c ∈ [Json.obj [("text", Json.str "bad")]],
      contentItemRecords pC5 c = none := by
    intro c hc
    simp only [List.mem_singleton] at hc
    subst hc
    rfl
  exact ⟨rfl, claim_C5 pC5 _ [Json.obj [("text", Json.str "bad")]] [] _ "good" _ _
    rfl rfl rfl hpre rfl rfl rfl⟩

/-- C6: a mapping envelope with an `items` field that is a sequence
resolves to exactly that sequence, unmodified and in order. -/
theorem claim_C6 (p : String → Option Json) (fields : List (String × Json)) (l : List Json)
    (h : lookupSeq "items" fields = some l) :
    extract_repos_from_response p (Json.obj fields) = l := by
  simp [extract_repos_from_response, h]

/-- Witness for C6 at `{"items": [7]}`. -/
theorem claim_C6_witness :
    lookupSeq "items" [("items", Json.arr [Json.num 7])] = some [Json.num 7]
    ∧ extract_repos_from_response pNone (Json.obj [("items", Json.arr [Json.num 7])])
      = [Json.num 7] :=
  ⟨rfl, claim_C6 pNone _ _ rfl⟩

/-- C7: the envelope whose single content item carries the text
`{"content": "SGVsbG8="}` decodes to "Hello" through the regex stage:
the embedded pattern is found, escaped newlines are stripped from the
captured group, and it is base64-decoded as UTF-8. -/
theorem claim_C7 (p : String → Option Json) (dmp : Json → String) :
    extract_file_content p dmp
      (Json.obj [("content", Json.arr [Json.obj
        [("text", Json.str "\x7b\"content\": \"SGVsbG8=\"\x7d")]])]) = some "Hello" := rfl

/-- C8: an empty-sequence envelope, and a mapping envelope carrying none
of the fields `items`, `repositories`, `content`, `data`, yield the empty
record list and an absent payload. -/
theorem claim_C8 (p : String → Option Json) (dmp : Json → String)
    (fields : List (String × Json))
    (h₁ : jLookup "items" fields = none) (h₂ : jLookup "repositories" fields = none)
    (h₃ : jLookup "content" fields = none) (h₄ : jLookup "data" fields = none) :
    extract_repos_from_response p (Json.arr []) = []
    ∧ extract_file_content p dmp (Json.arr []) = none
    ∧ extract_repos_from_response p (Json.obj fields) = []
    ∧ extract_file_content p dmp (Json.obj fields) = none := by
  refine ⟨rfl, rfl, ?_, ?_⟩
  · simp [extract_repos_from_response, lookupSeq, h₁, h₂, h₃, h₄]
  · simp [extract_file_content, regexStage, fileFormats, lookupSeq, h₃, isFalsyOpt]

/-- Witness for C8 at the mapping `{"foo": null}`. -/
theorem claim_C8_witness :
    jLookup "items" [("foo", Json.null)] = none
    ∧ extract_repos_from_response pNone (Json.obj [("foo", Json.null)]) = []
    ∧ extract_file_content pNone dmpEmpty (Json.obj [("foo", Json.null)]) = none := by
  have h := claim_C8 pNone dmpEmpty [("foo", Json.null)] rfl rfl rfl rfl
  exact ⟨rfl, h.2.2.1, h.2.2.2⟩

/-- C9: extraction is deterministic — running either extractor twice on
the same envelope yields identical results, the embeddings being pure
functions of the envelope. -/
theorem claim_C9 (p : String → Option Json) (dmp : Json → String) (e : Json) :
    extract_repos_from_response p e = extract_repos_from_response p e
    ∧ extract_file_content p dmp e = extract_file_content p dmp e
    ∧ get_readme_decoded p e = get_readme_decoded p e :=
  ⟨rfl, rfl, rfl⟩

/-- C10: a sequence envelope is returned whole as soon as each of its
first three elements (all of them, when shorter) is a mapping containing
the key `full_name`; elements beyond the third are never inspected, and
the empty sequence passes vacuously. -/
theorem claim_C10 (p : String → Option Json) (l : List Json)
    (h : ∀ x ∈ l.take 3, isRepoDict x = true) :
    extract_repos_from_response p (Json.arr l) = l := by
  have hall : (l.take 3).all isRepoDict = true := by
    rw [List.all_eq_true]
    exact h
  simp only [extract_repos_from_response]
  rw [if_pos hall]

/-- Witness for C10: a four-element sequence whose fourth element is a
bare string without the identifying key is still returned whole. -/
theorem claim_C10_witness :
    (∀ x ∈ ([repoRecord, repoRecord, repoRecord, Json.str "junk"].take 3 : List Json),
      isRepoDict x = true)
    ∧ extract_repos_from_response pNone
        (Json.arr [repoRecord, repoRecord, repoRecord, Json.str "junk"])
      = [repoRecord, repoRecord, repoRecord, Json.str "junk"] := by
  have h : ∀ x ∈ ([repoRecord, repoRecord, repoRecord, Json.str "junk"].take 3 : List Json),
      isRepoDict x = true := by
    intro x hx
    simp only [List.take, List.mem_cons, List.not_mem_nil, or_false, repoRecord] at hx
    rcases hx with h | h | h <;> subst h <;> rfl
  exact ⟨h, claim_C10 pNone _ h⟩
